import Mathlib

/-!
Verification of the serial-file transfer core against its specification.

The definitions below are shallow embeddings of the Python sources under
`src/serial_file_transfer/`: byte strings are `List Nat` (each entry a byte
value), machine integers are `Nat` with explicit `% 2^w` where the source
wraps, and fallible code returns `Option`. Each definition cites the source
function it embeds.
-/

/-! ## Checksum (`core/checksum.py`) -/

/-- `calculate_checksum`: sum of all byte values, masked to the low 16 bits
(`checksum & 0xFFFF`). Returns 0 for empty input. -/
def calculate_checksum (data : List Nat) : Nat :=
  data.sum % 65536

/-! ## Little-endian integer fields (`struct.pack`/`struct.unpack`) -/

/-- Little-endian 2-byte encoding of `n`, the layout `struct.pack "<H"`
produces for `n < 65536`. -/
def le16 (n : Nat) : List Nat :=
  [n % 256, n / 256]

/-- Little-endian 4-byte encoding of `n`, the layout `struct.pack "<I"`
produces for `n < 2^32`. -/
def le32 (n : Nat) : List Nat :=
  [n % 256, n / 256 % 256, n / 65536 % 256, n / 16777216]

/-- Value of a 2-byte little-endian field read from bytes `b0`, `b1`. -/
def read16 (b0 b1 : Nat) : Nat :=
  b0 + 256 * b1

/-! ## Frame codec (`core/frame_handler.py`) -/

/-- The byte layout produced by a successful `FrameHandler.pack_frame`:
command byte, 2-byte LE length, payload, 2-byte LE checksum. -/
def packedFrame (cmd : Nat) (data : List Nat) : List Nat :=
  [cmd] ++ le16 data.length ++ data ++ le16 (calculate_checksum data)

/-- `FrameHandler.pack_frame`. `struct.pack "<BH"` raises (caught, returning
`None`) when the command does not fit one byte or the length does not fit
two bytes; otherwise the packed frame is returned. -/
def pack_frame (cmd : Nat) (data : List Nat) : Option (List Nat) :=
  if cmd < 256 ∧ data.length < 65536 then some (packedFrame cmd data) else none

/-- `FrameHandler.unpack_frame`. Fails (returns `None`) when the input is
shorter than 5 bytes, when the declared length disagrees with the actual
remainder, or when the trailing checksum does not match; otherwise returns
`(cmd, data_len, data, received_crc)`. -/
def unpack_frame (f : List Nat) : Option (Nat × Nat × List Nat × Nat) :=
  if f.length < 5 then none
  else
    let cmd := f.getD 0 0
    let dataLen := read16 (f.getD 1 0) (f.getD 2 0)
    if dataLen ≠ f.length - 5 then none
    else
      let rest := f.drop 3
      let data := rest.take dataLen
      let crcBytes := rest.drop dataLen
      let recvCrc := read16 (crcBytes.getD 0 0) (crcBytes.getD 1 0)
      if recvCrc ≠ calculate_checksum data then none
      else some (cmd, dataLen, data, recvCrc)

theorem packedFrame_length (cmd : Nat) (data : List Nat) :
    (packedFrame cmd data).length = 5 + data.length := by
  simp [packedFrame, le16]
  omega

theorem unpack_packedFrame (cmd : Nat) (data : List Nat)
    (hlen : data.length < 65536) :
    unpack_frame (packedFrame cmd data) =
      some (cmd, data.length, data, calculate_checksum data) := by
  have hcrc : calculate_checksum data < 65536 := Nat.mod_lt _ (by norm_num)
  unfold unpack_frame
  rw [packedFrame_length]
  have h5 : ¬ (5 + data.length < 5) := by omega
  simp only [h5, if_false]
  have hshape : packedFrame cmd data =
      cmd :: (data.length % 256) :: (data.length / 256) ::
        (data ++ [calculate_checksum data % 256, calculate_checksum data / 256]) := by
    simp [packedFrame, le16]
  rw [hshape]
  simp only [List.getD_cons_zero, List.getD_cons_succ, List.drop_succ_cons,
    List.drop_zero, read16]
  have hdl : data.length % 256 + 256 * (data.length / 256) = data.length := by
    omega
  rw [hdl]
  have heq : ¬ (data.length ≠ 5 + data.length - 5) := by omega
  simp only [heq, if_false]
  rw [List.take_left' rfl, List.drop_left' rfl]
  simp only [List.getD_cons_zero, List.getD_cons_succ]
  have hc : calculate_checksum data % 256 + 256 * (calculate_checksum data / 256)
      = calculate_checksum data := by omega
  rw [hc]
  simp

/-- C7: For every command byte `cmd < 256` and every payload of at most 65535
bytes, packing succeeds and unpacking the packed frame returns exactly the
command, the payload length, the payload, and the additive 16-bit checksum
of the payload (which is the byte sum modulo 2^16, and 0 for an empty
payload). -/
theorem frame_round_trip (cmd : Nat) (payload : List Nat)
    (hcmd : cmd < 256) (hlen : payload.length ≤ 65535) :
    ∃ f, pack_frame cmd payload = some f ∧
      unpack_frame f = some (cmd, payload.length, payload, calculate_checksum payload) ∧
      calculate_checksum payload = payload.sum % 65536 ∧
      calculate_checksum [] = 0 := by
  refine ⟨packedFrame cmd payload, ?_, ?_, rfl, rfl⟩
  · simp [pack_frame, hcmd]
    omega
  · exact unpack_packedFrame cmd payload (by omega)

/-- Witness for C7 at a concrete command and payload. -/
theorem frame_round_trip_witness :
    ∃ f, pack_frame 100 [1, 2, 3] = some f ∧
      unpack_frame f = some (100, 3, [1, 2, 3], 6) ∧
      calculate_checksum [1, 2, 3] = [1, 2, 3].sum % 65536 ∧
      calculate_checksum [] = 0 :=
  frame_round_trip 100 [1, 2, 3] (by decide) (by decide)

/-- C9: `unpack_frame` is total (a plain function of its input in this
embedding, mirroring the source's catch-all exception handler): for every
input it either returns a quadruple whose length field equals the input
length minus 5, whose payload is the corresponding slice, and whose crc
equals the additive checksum of that payload, or it returns `none`; in
particular `none` for inputs shorter than 5 bytes, for inputs whose declared
length disagrees with the actual remainder, and for inputs whose trailing
checksum does not match. -/
theorem unpack_frame_shape (f : List Nat) :
    (∀ c l d k, unpack_frame f = some (c, l, d, k) →
        l = f.length - 5 ∧ d = (f.drop 3).take (f.length - 5) ∧
        k = calculate_checksum d ∧ c = f.getD 0 0) ∧
    (f.length < 5 → unpack_frame f = none) ∧
    (read16 (f.getD 1 0) (f.getD 2 0) ≠ f.length - 5 → unpack_frame f = none) ∧
    (read16 (((f.drop 3).drop (f.length - 5)).getD 0 0)
        (((f.drop 3).drop (f.length - 5)).getD 1 0) ≠
        calculate_checksum ((f.drop 3).take (f.length - 5)) →
      unpack_frame f = none) := by
  refine ⟨?_, ?_, ?_, ?_⟩
  · intro c l d k hsome
    simp only [unpack_frame] at hsome
    split_ifs at hsome with h1 h2 h3
    push_neg at h2
    simp only [Option.some.injEq, Prod.mk.injEq] at hsome
    obtain ⟨hc, hl, hd, hk⟩ := hsome
    push_neg at h3
    refine ⟨?_, ?_, ?_, ?_⟩
    · omega
    · rw [← hd, h2]
    · rw [← hk, ← hd, h3]
    · exact hc.symm
  · intro h
    simp only [unpack_frame]
    simp [h]
  · intro h
    simp only [unpack_frame]
    split_ifs with h1 <;> rfl
  · intro h
    simp only [unpack_frame]
    split_ifs with h1 h2 h3 <;> try rfl
    push_neg at h2 h3
    rw [h2] at h3
    exact absurd h3 h

/-- Witness for C9: concrete evaluations through `unpack_frame_shape`. -/
theorem unpack_frame_shape_witness :
    unpack_frame [9, 9] = none ∧ unpack_frame [7, 3, 0, 1, 2, 3] = none :=
  ⟨(unpack_frame_shape [9, 9]).2.1 (by decide),
   (unpack_frame_shape [7, 3, 0, 1, 2, 3]).2.2.1 (by decide)⟩

/-! ## Probe-side streaming frame unpacker
(`core/probe_manager.py`, `ProbeManager._receive_probe_frame`)

The source accumulates serial reads into a buffer and repeatedly: stops when
fewer than 5 bytes are buffered; reads the declared length from bytes 1..2
and stops when fewer than `5 + declared` bytes are buffered; otherwise slices
off that whole candidate frame, attempts `unpack_frame` on it, yields the
payload when it unpacks to the expected command, and otherwise moves on to
the bytes after the candidate. The model below runs that inner loop over a
fully delivered byte stream; the fuel argument only bounds the number of
candidate slices and is set high enough to never run out. -/

/-- One run of the buffer-draining loop of `_receive_probe_frame`. Returns
the first payload whose frame unpacks with the expected command, together
with the number of bytes consumed before and including that frame. -/
def probeStreamExtractFuel (expected : Nat) : Nat → List Nat → Option (List Nat) × Nat
  | 0, _ => (none, 0)
  | fuel + 1, buffer =>
    if buffer.length < 5 then (none, 0)
    else
      let dataLen := read16 (buffer.getD 1 0) (buffer.getD 2 0)
      let frameLen := 3 + dataLen + 2
      if buffer.length < frameLen then (none, 0)
      else
        match unpack_frame (buffer.take frameLen) with
        | some (c, _, d, _) =>
          if c = expected then (some d, frameLen)
          else
            let r := probeStreamExtractFuel expected fuel (buffer.drop frameLen)
            (r.1, frameLen + r.2)
        | none =>
          let r := probeStreamExtractFuel expected fuel (buffer.drop frameLen)
          (r.1, frameLen + r.2)

/-- `_receive_probe_frame`'s buffer loop on a complete stream. Each step
consumes at least 5 bytes, so `buffer.length` steps of fuel are enough. -/
def probeStreamExtract (expected : Nat) (buffer : List Nat) : Option (List Nat) × Nat :=
  probeStreamExtractFuel expected buffer.length buffer

/-- An invalid candidate frame: at least 5 bytes, its declared length field
matches its extent, and `unpack_frame` rejects it (for instance because its
checksum is wrong). -/
def garbageBlock (g : List Nat) : Prop :=
  5 ≤ g.length ∧ read16 (g.getD 1 0) (g.getD 2 0) = g.length - 5 ∧ unpack_frame g = none

/-- C6 counterexample: 3 garbage bytes followed by the valid frame
`pack_frame 0x42 [] = [66, 0, 0, 0, 0]`. The claim says the streaming
unpacker drops one leading byte per failure and hence must yield that frame
after consuming at most 3 + 5 bytes. Instead the garbage bytes `[1, 2, 0]`
declare a 2-byte body, the unpacker slices a 7-byte candidate that swallows
the first two bytes of the valid frame, rejects it, discards all 7 bytes,
and never yields the frame. -/
theorem probe_stream_resync_counterexample :
    pack_frame 66 [] = some [66, 0, 0, 0, 0] ∧
    probeStreamExtract 66 ([1, 2, 0] ++ [66, 0, 0, 0, 0]) = (none, 7) := by
  constructor <;> decide

theorem probeStreamExtractFuel_block (expected : Nat) (fuel : Nat)
    (g rest : List Nat) (hg : garbageBlock g) :
    probeStreamExtractFuel expected (fuel + 1) (g ++ rest) =
      (let r := probeStreamExtractFuel expected fuel rest; (r.1, g.length + r.2)) := by
  obtain ⟨h5, hdecl, hunpack⟩ := hg
  have hlen : (g ++ rest).length = g.length + rest.length := by simp
  have hget1 : (g ++ rest).getD 1 0 = g.getD 1 0 := by
    apply List.getD_append
    omega
  have hget2 : (g ++ rest).getD 2 0 = g.getD 2 0 := by
    apply List.getD_append
    omega
  simp only [probeStreamExtractFuel, hget1, hget2, hlen, hdecl]
  have hframeLen : 3 + (g.length - 5) + 2 = g.length := by omega
  rw [hframeLen]
  have hnotshort : ¬ (g.length + rest.length < 5) := by omega
  have hnotshort2 : ¬ (g.length + rest.length < g.length) := by omega
  simp only [hnotshort, if_false, hnotshort2]
  rw [List.take_left' rfl, List.drop_left' rfl, hunpack]

theorem probeStreamExtractFuel_frame (expected : Nat) (fuel : Nat)
    (payload : List Nat) (hlen : payload.length < 65536) :
    probeStreamExtractFuel expected (fuel + 1) (packedFrame expected payload) =
      (some payload, 5 + payload.length) := by
  have hshape := packedFrame_length expected payload
  have hdl : read16 ((packedFrame expected payload).getD 1 0)
      ((packedFrame expected payload).getD 2 0) = payload.length := by
    have : packedFrame expected payload =
        expected :: (payload.length % 256) :: (payload.length / 256) ::
          (payload ++ le16 (calculate_checksum payload)) := by
      simp [packedFrame, le16]
    rw [this]
    simp only [List.getD_cons_zero, List.getD_cons_succ, read16]
    omega
  simp only [probeStreamExtractFuel, hshape, hdl]
  have h1 : ¬ (5 + payload.length < 5) := by omega
  have h2 : ¬ (5 + payload.length < 3 + payload.length + 2) := by omega
  simp only [h1, if_false, h2]
  have htake : (packedFrame expected payload).take (3 + payload.length + 2) =
      packedFrame expected payload := by
    apply List.take_of_length_le
    omega
  rw [htake, unpack_packedFrame expected payload hlen]
  simp only [if_true, eq_self_iff_true, Prod.mk.injEq, and_true, true_and]
  omega

/-- C6 amended: when an accumulated candidate frame fails to unpack, the
probe streaming unpacker discards the entire candidate (5 bytes plus its
declared length), not a single leading byte; consequently it is guaranteed
to yield a valid trailing frame only when the preceding garbage is a
concatenation of such full invalid candidates, in which case it consumes
exactly the garbage plus the frame, i.e. at most `G + frame_len` bytes. -/
theorem probe_stream_resync_amended (expected : Nat) (blocks : List (List Nat))
    (payload : List Nat) (hblocks : ∀ g ∈ blocks, garbageBlock g)
    (hlen : payload.length < 65536) :
    probeStreamExtract expected (blocks.flatten ++ packedFrame expected payload) =
      (some payload, blocks.flatten.length + (5 + payload.length)) := by
  have main : ∀ (bs : List (List Nat)), (∀ g ∈ bs, garbageBlock g) →
      ∀ fuel, bs.length + 1 ≤ fuel →
      probeStreamExtractFuel expected fuel (bs.flatten ++ packedFrame expected payload) =
        (some payload, bs.flatten.length + (5 + payload.length)) := by
    intro bs
    induction bs with
    | nil =>
      intro _ fuel hfuel
      obtain ⟨fuel', rfl⟩ : ∃ k, fuel = k + 1 := ⟨fuel - 1, by omega⟩
      simpa using probeStreamExtractFuel_frame expected fuel' payload hlen
    | cons g bs ih =>
      intro hall fuel hfuel
      obtain ⟨fuel', rfl⟩ : ∃ k, fuel = k + 1 := ⟨fuel - 1, by omega⟩
      have hg : garbageBlock g := hall g (by simp)
      have hrest : ∀ b ∈ bs, garbageBlock b := fun b hb => hall b (by simp [hb])
      have hstep := probeStreamExtractFuel_block expected fuel'
        g (bs.flatten ++ packedFrame expected payload) hg
      rw [List.flatten_cons, List.append_assoc, hstep,
        ih hrest fuel' (by simp at hfuel ⊢; omega)]
      simp
      omega
  apply main blocks hblocks
  have hb : ∀ g ∈ blocks, 5 ≤ g.length := fun g hg => (hblocks g hg).1
  have : blocks.length ≤ blocks.flatten.length := by
    induction blocks with
    | nil => simp
    | cons g bs ih =>
      have hg5 : 5 ≤ g.length := hb g (by simp)
      have ih2 := ih (fun b hbmem => hblocks b (by simp [hbmem]))
        (fun b hbmem => hb b (by simp [hbmem]))
      simp only [List.flatten_cons, List.length_append, List.length_cons]
      omega
  have hp : 5 ≤ (packedFrame expected payload).length := by
    rw [packedFrame_length]
    omega
  simp only [probeStreamExtract, List.length_append]
  omega

/-- Witness for C6 amended: one concrete invalid candidate block followed by
an empty-payload frame for command `0x42`. -/
theorem probe_stream_resync_amended_witness :
    probeStreamExtract 66 ([[0, 1, 0, 9, 0, 0]].flatten ++ packedFrame 66 []) =
      (some [], [[0, 1, 0, 9, 0, 0]].flatten.length + (5 + ([] : List Nat).length)) :=
  probe_stream_resync_amended 66 [[0, 1, 0, 9, 0, 0]] []
    (by intro g hg; simp at hg; subst hg; constructor <;> decide) (by decide)

/-! ## Chunk-size policy (`config/constants.py`) -/

/-- `MIN_CHUNK_SIZE`. -/
def MIN_CHUNK_SIZE : Nat := 512

/-- `MAX_CHUNK_SIZE`. -/
def MAX_CHUNK_SIZE : Nat := 16384

/-- `BAUDRATE_CHUNK_SIZE_MAP` in its insertion order. -/
def BAUDRATE_CHUNK_SIZE_MAP : List (Nat × Nat) :=
  [(9600, 512), (19200, 512), (38400, 512), (57600, 512), (115200, 1024),
   (230400, 1024), (460800, 1024), (921600, 2048), (1000000, 4096),
   (1500000, 8192), (1728000, 8192)]

/-- Absolute difference of two naturals, modelling `abs(x - baudrate)` on
Python integers. -/
def natDist (a b : Nat) : Nat :=
  max a b - min a b

/-- `min(keys, key=lambda x: abs(x - baudrate))`: the first key of the table
with minimal distance to `baudrate` (Python's `min` keeps the earliest
minimum). -/
def closestTableKey (baudrate : Nat) : Nat :=
  match BAUDRATE_CHUNK_SIZE_MAP.map Prod.fst with
  | [] => 0
  | k :: ks => ks.foldl (fun best k2 =>
      if natDist k2 baudrate < natDist best baudrate then k2 else best) k

/-- Table lookup, `BAUDRATE_CHUNK_SIZE_MAP[key]`. -/
def chunkTableLookup (key : Nat) : Nat :=
  match BAUDRATE_CHUNK_SIZE_MAP.find? (fun kv => kv.1 = key) with
  | some kv => kv.2
  | none => 0

/-- `calculate_recommended_chunk_size`: exact table hit, else the closest
tabulated rate, doubled (capped at `MAX_CHUNK_SIZE`) when the actual rate is
strictly higher, finally clamped to `[MIN_CHUNK_SIZE, MAX_CHUNK_SIZE]`. -/
def calculate_recommended_chunk_size (baudrate : Nat) : Nat :=
  if (BAUDRATE_CHUNK_SIZE_MAP.map Prod.fst).contains baudrate then
    chunkTableLookup baudrate
  else
    let closest := closestTableKey baudrate
    let recommended :=
      if closest < baudrate then min (chunkTableLookup closest * 2) MAX_CHUNK_SIZE
      else chunkTableLookup closest
    max MIN_CHUNK_SIZE (min recommended MAX_CHUNK_SIZE)

/-- `negotiate_chunk_size`: `min(sender_recommended, receiver_max)` clamped
to `[MIN_CHUNK_SIZE, MAX_CHUNK_SIZE]`. -/
def negotiate_chunk_size (sender_recommended receiver_max : Nat) : Nat :=
  max MIN_CHUNK_SIZE (min (min sender_recommended receiver_max) MAX_CHUNK_SIZE)

/-- C3 counterexample: for `s = r = 1` the negotiated size is 512, which is
strictly greater than `min(s, r) = 1`, so `negotiate(s, r) ≤ min(s, r)`
fails for arbitrary positive inputs. -/
theorem negotiate_chunk_size_counterexample :
    negotiate_chunk_size 1 1 = 512 ∧ ¬ negotiate_chunk_size 1 1 ≤ min 1 1 := by
  constructor <;> decide

/-- C3 amended: the negotiated chunk size always lies in `[512, 16384]`, and
it is bounded by `min(s, r)` exactly when `min(s, r)` is at least 512 (for
smaller requests the lower clamp wins). -/
theorem negotiate_chunk_size_amended (s r : Nat) :
    512 ≤ negotiate_chunk_size s r ∧ negotiate_chunk_size s r ≤ 16384 ∧
      (512 ≤ min s r → negotiate_chunk_size s r ≤ min s r) := by
  unfold negotiate_chunk_size MIN_CHUNK_SIZE MAX_CHUNK_SIZE
  omega

/-- Witness for C3 amended at `s = 2048`, `r = 4096`. -/
theorem negotiate_chunk_size_amended_witness :
    512 ≤ negotiate_chunk_size 2048 4096 ∧ negotiate_chunk_size 2048 4096 ≤ 16384 ∧
      negotiate_chunk_size 2048 4096 ≤ min 2048 4096 :=
  ⟨(negotiate_chunk_size_amended 2048 4096).1,
   (negotiate_chunk_size_amended 2048 4096).2.1,
   (negotiate_chunk_size_amended 2048 4096).2.2 (by decide)⟩

/-! ## Capability negotiation, sender side
(`core/probe_manager.py`, `ProbeManager.negotiate_capability`) -/

/-- `ProbeManager.supported_baudrates`: the sender's priority list, highest
rate first. -/
def senderPriorityBaudrates : List Nat :=
  [6000000, 4000000, 3000000, 2000000, 1728000, 921600, 460800, 230400, 115200]

/-- The selection loop of `negotiate_capability`: the first rate of the
sender's own priority list that also appears in the peer's list. -/
def select_common_baudrate (prio peer : List Nat) : Option Nat :=
  prio.find? (fun b => peer.contains b)

/-- `ProbeManager.negotiate_capability`, embedded faithfully. After picking
the first common baudrate, the source generates a session id, derives the
transfer mode from `file_count`, computes the recommended chunk size, and
then evaluates
`CapabilityNegoData(session_id=…, transfer_mode=…, file_count=…,
total_size=…, selected_baudrate=…, chunk_size=…)`.
The dataclass `CapabilityNegoData` (`core/probe_structures.py`) declares a
required field `root_path` with no default; the constructor call omits it
and raises `TypeError`, which the enclosing `except Exception` swallows,
returning `None` before any CAPABILITY_NEGO frame is written to the port.
The parameters mirror the Python arguments plus the generated session id;
no reply can influence the result because the failure precedes the send. -/
def negotiate_capability (file_count total_size sessionId : Nat)
    (peerBaudrates : List Nat) : Option Nat :=
  match select_common_baudrate senderPriorityBaudrates peerBaudrates with
  | none => none
  | some selected =>
    let _transferMode := if 1 < file_count then 2 else 1
    let _recommended := calculate_recommended_chunk_size selected
    let _sessionId := sessionId
    let _totalSize := total_size
    none

/-- C2: `negotiate_capability` can never succeed. Even when the probe
response shares baudrates with the priority list (here 1728000, 921600 and
115200 are all common, and the selection logic does pick the highest,
1728000), the function returns `None` instead of sending CAPABILITY_NEGO
and returning the selected rate, because constructing `CapabilityNegoData`
without its required `root_path` field raises `TypeError` inside the
try-block. The repository's own test
(`tests/test_probe_capability.py::test_negotiate_capability_success`)
expects the call to return 1728000 on this input. -/
theorem negotiate_capability_always_fails :
    select_common_baudrate senderPriorityBaudrates [115200, 921600, 1728000] =
      some 1728000 ∧
    negotiate_capability 3 1048576 305419896 [115200, 921600, 1728000] = none ∧
    ∀ fc ts sid peer, negotiate_capability fc ts sid peer = none := by
  refine ⟨by decide, rfl, ?_⟩
  intro fc ts sid peer
  unfold negotiate_capability
  cases select_common_baudrate senderPriorityBaudrates peer <;> rfl

/-! ## Transfer command bytes (`config/constants.py`, `SerialCommand`) -/

/-- `SerialCommand.REQUEST_DATA`. -/
def REQUEST_DATA : Nat := 0x63

/-- `SerialCommand.SEND_DATA`. -/
def SEND_DATA : Nat := 0x64

/-- `SerialCommand.ACK`. -/
def CMD_ACK : Nat := 0x65

/-- `SerialCommand.NACK`. -/
def CMD_NACK : Nat := 0x66

/-! ## Receiver engine (`transfer/receiver.py`, `FileReceiver`)

State of one `FileReceiver.start_transfer` run after the size handshake:
the declared size, the confirmed byte count `recv_size`, the bytes written
to the destination file (`disk`), the expected sequence number, the mutable
`config.max_data_length`, and `config.max_retries`. Incoming reads are the
results of `FrameHandler.read_frame`: `none` on timeout/garbage, otherwise
`(cmd, data)`. Serial writes are modelled as succeeding. -/

structure RecvState where
  fileSize : Nat
  recvSize : Nat
  disk : List Nat
  expectedSeq : Nat
  maxDataLength : Nat
  maxRetries : Nat
deriving DecidableEq, Repr

/-- Frames the receiver writes to the port. -/
inductive RxTxFrame where
  | requestData (addr len : Nat)
  | ack (seq : Nat)
  | nackReply (seq : Nat)
deriving DecidableEq, Repr

/-- `FileReceiver.receive_data_package`. Returns (success, new state, frames
written). A sender NACK (adaptive renegotiation) sets
`config.max_data_length` to the advised value with no clamping and fails the
attempt; a SEND_DATA with the expected sequence number is acknowledged and
written; any other sequence number is answered with a NACK carrying that
frame's sequence number, without writing; everything else fails the attempt.
The guards of fewer than 4 (resp. 2) data bytes mirror `struct.unpack`
raising into the catch-all handler, and the `65536 ≤ seqId` guard mirrors
`struct.pack "<H"` raising while building the ACK/NACK frame. -/
def receive_data_package (s : RecvState) (r : Option (Nat × List Nat)) :
    Bool × RecvState × List RxTxFrame :=
  match r with
  | none => (false, s, [])
  | some (cmd, data) =>
    if cmd = CMD_NACK then
      if 4 ≤ data.length then
        (false, { s with maxDataLength := read16 (data.getD 2 0) (data.getD 3 0) }, [])
      else (false, s, [])
    else if cmd ≠ SEND_DATA then (false, s, [])
    else if data.length < 2 then (false, s, [])
    else
      let seqId := read16 (data.getD 0 0) (data.getD 1 0)
      let payload := data.drop 2
      if 65536 ≤ seqId then (false, s, [])
      else if seqId = s.expectedSeq then
        (true,
         { s with recvSize := s.recvSize + payload.length,
                  disk := s.disk ++ payload,
                  expectedSeq := (s.expectedSeq + 1) % 65536 },
         [RxTxFrame.ack seqId])
      else (false, s, [RxTxFrame.nackReply seqId])

/-- `FileReceiver._receive_chunk_with_retry`: up to `attempts` tries, each
sending `REQUEST_DATA {addr, len}` (with the length captured once by the
caller) and then reading one frame. Returns (success, state, remaining
reads, frames written). -/
def tryChunk (addr len : Nat) : RecvState → List (Option (Nat × List Nat)) → Nat →
    Bool × RecvState × List (Option (Nat × List Nat)) × List RxTxFrame
  | s, _, 0 => (false, s, [], [])
  | s, evs, attempts + 1 =>
    let ev := evs.headD none
    let rest := evs.tail
    let step := receive_data_package s ev
    if step.1 then (true, step.2.1, rest, RxTxFrame.requestData addr len :: step.2.2)
    else
      let next := tryChunk addr len step.2.1 rest attempts
      (next.1, next.2.1, next.2.2.1,
       (RxTxFrame.requestData addr len :: step.2.2) ++ next.2.2.2)

/-- How a `start_transfer` run ended. -/
inductive RecvExit where
  | finished
  | sizeMismatch
  | chunkFail
  | fuelOut
deriving DecidableEq, Repr

/-- Observable outcome of `FileReceiver.start_transfer`. -/
structure RecvRun where
  success : Bool
  closed : Bool
  deleted : Bool
  exit : RecvExit
  txLog : List RxTxFrame
  finalState : RecvState
deriving DecidableEq, Repr

/-- The main loop of `FileReceiver.start_transfer` after the size handshake:
while `recv_size < file_size`, request `min(file_size − recv_size,
config.max_data_length)` bytes with retries; on retry exhaustion close and
delete the partial file and fail; once the loop exits, close the file and
compare the on-disk size with the declared size — on mismatch report failure
(without deleting), otherwise succeed. -/
def receiver_loop : Nat → RecvState → List (Option (Nat × List Nat)) → List RxTxFrame →
    RecvRun
  | 0, s, _, acc => ⟨false, false, false, RecvExit.fuelOut, acc, s⟩
  | fuel + 1, s, evs, acc =>
    if s.recvSize < s.fileSize then
      let len := min (s.fileSize - s.recvSize) s.maxDataLength
      let r := tryChunk s.recvSize len s evs (s.maxRetries + 1)
      if r.1 then receiver_loop fuel r.2.1 r.2.2.1 (acc ++ r.2.2.2)
      else ⟨false, true, true, RecvExit.chunkFail, acc ++ r.2.2.2, r.2.1⟩
    else
      if s.disk.length ≠ s.fileSize then
        ⟨false, true, false, RecvExit.sizeMismatch, acc, s⟩
      else ⟨true, true, false, RecvExit.finished, acc, s⟩

/-- C4 counterexample: declared size 4, and the sender delivers a single
in-sequence SEND_DATA frame carrying 6 payload bytes. The loop exits with 6
bytes on disk, the final size check fails, and the receiver reports failure
and closes the file — but does not delete it, contrary to the claim. -/
theorem receiver_size_mismatch_counterexample :
    (receiver_loop 2 ⟨4, 0, [], 0, 1024, 0⟩
        [some (SEND_DATA, [0, 0, 7, 7, 7, 7, 7, 7])] []).exit =
      RecvExit.sizeMismatch ∧
    (receiver_loop 2 ⟨4, 0, [], 0, 1024, 0⟩
        [some (SEND_DATA, [0, 0, 7, 7, 7, 7, 7, 7])] []).success = false ∧
    (receiver_loop 2 ⟨4, 0, [], 0, 1024, 0⟩
        [some (SEND_DATA, [0, 0, 7, 7, 7, 7, 7, 7])] []).deleted = false := by
  refine ⟨?_, ?_, ?_⟩ <;> decide

/-- C4 amended: when the receive loop completes but the on-disk size differs
from the declared size, the receiver reports the transfer as failed and
closes the destination file, but it does not delete it; the partial file is
deleted only on the chunk-retry-exhaustion exit (and in the exception
handler), not on the size-mismatch exit. -/
theorem receiver_size_mismatch_amended (fuel : Nat) (s : RecvState)
    (evs : List (Option (Nat × List Nat))) (acc : List RxTxFrame) :
    ((receiver_loop fuel s evs acc).exit = RecvExit.sizeMismatch →
      (receiver_loop fuel s evs acc).success = false ∧
      (receiver_loop fuel s evs acc).closed = true ∧
      (receiver_loop fuel s evs acc).deleted = false) ∧
    ((receiver_loop fuel s evs acc).exit = RecvExit.chunkFail →
      (receiver_loop fuel s evs acc).success = false ∧
      (receiver_loop fuel s evs acc).closed = true ∧
      (receiver_loop fuel s evs acc).deleted = true) := by
  induction fuel generalizing s evs acc with
  | zero =>
    simp [receiver_loop]
  | succ n ih =>
    simp only [receiver_loop]
    split_ifs with h1 h2 h3
    · exact ih _ _ _
    all_goals constructor <;> intro hk <;>
      first
        | exact ⟨rfl, rfl, rfl⟩
        | simp at hk

/-- Witness for C4 amended: the size-mismatch part at the concrete
counterexample run, and the chunk-fail part on a run whose only read times
out. -/
theorem receiver_size_mismatch_amended_witness :
    ((receiver_loop 2 ⟨4, 0, [], 0, 1024, 0⟩
        [some (SEND_DATA, [0, 0, 7, 7, 7, 7, 7, 7])] []).success = false ∧
     (receiver_loop 2 ⟨4, 0, [], 0, 1024, 0⟩
        [some (SEND_DATA, [0, 0, 7, 7, 7, 7, 7, 7])] []).closed = true ∧
     (receiver_loop 2 ⟨4, 0, [], 0, 1024, 0⟩
        [some (SEND_DATA, [0, 0, 7, 7, 7, 7, 7, 7])] []).deleted = false) ∧
    ((receiver_loop 1 ⟨4, 0, [], 0, 1024, 0⟩ [none] []).success = false ∧
     (receiver_loop 1 ⟨4, 0, [], 0, 1024, 0⟩ [none] []).closed = true ∧
     (receiver_loop 1 ⟨4, 0, [], 0, 1024, 0⟩ [none] []).deleted = true) :=
  ⟨(receiver_size_mismatch_amended 2 ⟨4, 0, [], 0, 1024, 0⟩
      [some (SEND_DATA, [0, 0, 7, 7, 7, 7, 7, 7])] []).1 (by decide),
   (receiver_size_mismatch_amended 1 ⟨4, 0, [], 0, 1024, 0⟩ [none] []).2 (by decide)⟩

/-- C8: when the receiver reads a SEND_DATA frame whose sequence number
differs from its expected sequence number, it emits exactly one NACK
carrying that frame's sequence number, writes no bytes, and leaves the whole
state — in particular `recv_size` and the expected sequence number —
unchanged. -/
theorem recv_out_of_order_nack (s : RecvState) (data : List Nat)
    (hlen : 2 ≤ data.length)
    (hseq : read16 (data.getD 0 0) (data.getD 1 0) ≠ s.expectedSeq)
    (hrange : read16 (data.getD 0 0) (data.getD 1 0) < 65536) :
    receive_data_package s (some (SEND_DATA, data)) =
      (false, s, [RxTxFrame.nackReply (read16 (data.getD 0 0) (data.getD 1 0))]) := by
  unfold receive_data_package
  have hc1 : ¬ (SEND_DATA = CMD_NACK) := by decide
  have hc2 : ¬ (SEND_DATA ≠ SEND_DATA) := by simp
  have hl : ¬ (data.length < 2) := by omega
  have hr : ¬ (65536 ≤ read16 (data.getD 0 0) (data.getD 1 0)) := by omega
  simp only [hc1, if_false, hc2, hl, hr, hseq]

/-- Witness for C8: expected sequence 5, incoming sequence 3. -/
theorem recv_out_of_order_nack_witness :
    receive_data_package ⟨10, 0, [], 5, 1024, 0⟩ (some (SEND_DATA, [3, 0, 8, 8])) =
      (false, ⟨10, 0, [], 5, 1024, 0⟩,
        [RxTxFrame.nackReply (read16 ([3, 0, 8, 8].getD 0 0) ([3, 0, 8, 8].getD 1 0))]) :=
  recv_out_of_order_nack ⟨10, 0, [], 5, 1024, 0⟩ [3, 0, 8, 8]
    (by decide) (by decide) (by decide)

/-- C10 counterexample: state with declared size 8192, `max_data_length`
4096 and one retry. The chunk loop captures `request_len = 4096`; the first
read is a sender NACK advising L = 1024, which the receiver adopts; yet the
retry that follows immediately re-sends `REQUEST_DATA {0, 4096}` — not
`min(remaining, L) = 1024` — so not every subsequent REQUEST_DATA asks for
`min(remaining bytes, L)` bytes. -/
theorem recv_nack_resize_counterexample :
    (receiver_loop 1 ⟨8192, 0, [], 0, 4096, 1⟩
        [some (CMD_NACK, [0, 0, 0, 4]), none] []).txLog =
      [RxTxFrame.requestData 0 4096, RxTxFrame.requestData 0 4096] ∧
    (receiver_loop 1 ⟨8192, 0, [], 0, 4096, 1⟩
        [some (CMD_NACK, [0, 0, 0, 4]), none] []).finalState.maxDataLength = 1024 ∧
    min (8192 - 0) 1024 = 1024 ∧ (4096 : Nat) ≠ 1024 := by
  refine ⟨?_, ?_, ?_, ?_⟩ <;> decide

/-- C10 amended: on a sender NACK advising a 16-bit length L the receiver
sets `config.max_data_length` to exactly L, with no clamping to the
512..16384 bounds, for every L including 0; the REQUEST_DATA of each
subsequent chunk asks for `min(remaining bytes, L)` bytes, but the retries
of the chunk in flight replay the previously captured request length rather
than `min(remaining, L)`. -/
theorem recv_nack_resize_amended (s : RecvState) (data : List Nat)
    (hlen : 4 ≤ data.length) :
    receive_data_package s (some (CMD_NACK, data)) =
      (false, { s with maxDataLength := read16 (data.getD 2 0) (data.getD 3 0) }, []) ∧
    (∀ evs n,
      (tryChunk s.recvSize (min (s.fileSize - s.recvSize) s.maxDataLength) s evs
          (n + 1)).2.2.2.head? =
        some (RxTxFrame.requestData s.recvSize
          (min (s.fileSize - s.recvSize) s.maxDataLength))) ∧
    (∀ addr len evs attempts a l,
      RxTxFrame.requestData a l ∈ (tryChunk addr len s evs attempts).2.2.2 →
        a = addr ∧ l = len) := by
  refine ⟨?_, ?_, ?_⟩
  · unfold receive_data_package
    simp [hlen]
  · intro evs n
    simp only [tryChunk]
    split_ifs <;> simp
  · intro addr len
    have noReq : ∀ (st : RecvState) ev a l,
        RxTxFrame.requestData a l ∉ (receive_data_package st ev).2.2 := by
      intro st ev a l
      unfold receive_data_package
      rcases ev with _ | ⟨cmd, data⟩
      · simp
      · dsimp only
        split_ifs <;> simp
    have general : ∀ attempts (st : RecvState) evs a l,
        RxTxFrame.requestData a l ∈ (tryChunk addr len st evs attempts).2.2.2 →
          a = addr ∧ l = len := by
      intro attempts
      induction attempts with
      | zero =>
        intro st evs a l hmem
        simp [tryChunk] at hmem
      | succ n ih =>
        intro st evs a l hmem
        simp only [tryChunk] at hmem
        split_ifs at hmem with hok
        · rcases List.mem_cons.mp hmem with heq | hmem2
          · simp only [RxTxFrame.requestData.injEq] at heq
            exact heq
          · exact absurd hmem2 (noReq _ _ _ _)
        · rcases List.mem_append.mp hmem with hleft | hright
          · rcases List.mem_cons.mp hleft with heq | hmem2
            · simp only [RxTxFrame.requestData.injEq] at heq
              exact heq
            · exact absurd hmem2 (noReq _ _ _ _)
          · exact ih _ _ _ _ hright
    intro evs attempts a l
    exact general attempts s evs a l

/-- Witness for C10 amended at a concrete state, NACK payload advising
L = 1024, and a one-attempt chunk whose only read times out. -/
theorem recv_nack_resize_amended_witness :
    receive_data_package ⟨8192, 0, [], 0, 4096, 1⟩ (some (CMD_NACK, [0, 0, 0, 4])) =
      (false, { fileSize := 8192, recvSize := 0, disk := [], expectedSeq := 0,
                maxDataLength := read16 ([0, 0, 0, 4].getD 2 0) ([0, 0, 0, 4].getD 3 0),
                maxRetries := 1 }, []) ∧
    (tryChunk 0 (min (8192 - 0) 4096) ⟨8192, 0, [], 0, 4096, 1⟩ [none] 1).2.2.2.head? =
      some (RxTxFrame.requestData 0 (min (8192 - 0) 4096)) ∧
    (0 = 0 ∧ 4096 = 4096) :=
  ⟨(recv_nack_resize_amended ⟨8192, 0, [], 0, 4096, 1⟩ [0, 0, 0, 4] (by decide)).1,
   (recv_nack_resize_amended ⟨8192, 0, [], 0, 4096, 1⟩ [0, 0, 0, 4] (by decide)).2.1 [none] 0,
   (recv_nack_resize_amended ⟨8192, 0, [], 0, 4096, 1⟩ [0, 0, 0, 4] (by decide)).2.2
     0 4096 [none] 1 0 4096 (by decide)⟩

/-! ## Sender engine (`transfer/sender.py`, `FileSender._wait_for_data_request`
and `config/settings.py`, `TransferConfig.get_effective_chunk_size`) -/

/-- `TransferConfig.get_effective_chunk_size`: the negotiated chunk size when
one is set, otherwise `max_data_length`. -/
def get_effective_chunk_size (maxDataLength : Nat) (negotiatedChunkSize : Option Nat) : Nat :=
  negotiatedChunkSize.getD maxDataLength

/-- Sender-side state visible to `_wait_for_data_request`. -/
structure SenderState where
  seqId : Nat
  fileSize : Nat
  maxDataLength : Nat
  negotiatedChunkSize : Option Nat
deriving DecidableEq, Repr

/-- What `_wait_for_data_request` does with one read. `continueWait` models
`return True` (keep serving requests) together with the frames written;
`fatalStop` models `return False`; `dataPhase addr len` models falling
through to `_send_data_package(addr, len)`, the only path that transmits a
SEND_DATA frame. -/
inductive SenderOutcome where
  | continueWait (nackPayloads : List (List Nat)) (s : SenderState)
  | fatalStop (s : SenderState)
  | dataPhase (addr len : Nat) (s : SenderState)
deriving DecidableEq, Repr

/-- `FileSender._wait_for_data_request`. A non-REQUEST_DATA command is
logged and skipped; a REQUEST_DATA whose body is not exactly 6 bytes makes
`struct.unpack "<IH"` raise into the catch-all handler (`return False`).
When the requested length exceeds the effective chunk size the sender sends
one NACK whose 4-byte payload is `pack "<HH" (seq_id, config.max_data_length)`
— note: `max_data_length`, not the effective size — and keeps waiting
without sending data (the guard mirrors `struct.pack` raising when either
field exceeds 16 bits). Otherwise the address is validated against the file
size, over-long requests are clamped, and the data phase runs. -/
def wait_for_data_request (s : SenderState) (r : Option (Nat × List Nat)) :
    SenderOutcome :=
  match r with
  | none => SenderOutcome.continueWait [] s
  | some (cmd, data) =>
    if cmd ≠ REQUEST_DATA then SenderOutcome.continueWait [] s
    else if data.length ≠ 6 then SenderOutcome.fatalStop s
    else
      let addr := data.getD 0 0 + 256 * data.getD 1 0 + 65536 * data.getD 2 0 +
        16777216 * data.getD 3 0
      let len := read16 (data.getD 4 0) (data.getD 5 0)
      let eff := get_effective_chunk_size s.maxDataLength s.negotiatedChunkSize
      if eff < len then
        if 65536 ≤ s.seqId ∨ 65536 ≤ s.maxDataLength then SenderOutcome.fatalStop s
        else SenderOutcome.continueWait [le16 s.seqId ++ le16 s.maxDataLength] s
      else if s.fileSize < addr + len then
        if s.fileSize < addr then SenderOutcome.fatalStop s
        else SenderOutcome.dataPhase addr (s.fileSize - addr) s
      else SenderOutcome.dataPhase addr len s

/-- C5 counterexample: negotiated chunk size 2048, default `max_data_length`
1024, requested length 4096. The sender does reply with a single NACK and no
SEND_DATA, but the NACK payload carries `max_data_length` (1024), not the
effective chunk size (2048) demanded by the claim. -/
theorem sender_nack_payload_counterexample :
    wait_for_data_request ⟨0, 100000, 1024, some 2048⟩
        (some (REQUEST_DATA, [0, 0, 0, 0, 0, 16])) =
      SenderOutcome.continueWait [[0, 0, 0, 4]] ⟨0, 100000, 1024, some 2048⟩ ∧
    get_effective_chunk_size 1024 (some 2048) = 2048 ∧
    [0, 0, 0, 4] ≠ le16 0 ++ le16 2048 := by
  refine ⟨?_, ?_, ?_⟩ <;> decide

/-- C5 amended: whenever the sender receives a REQUEST_DATA whose requested
length exceeds the effective chunk size, it transmits no SEND_DATA frame for
that request and emits exactly one NACK whose 4-byte payload is the current
sequence number followed by `config.max_data_length` — a value equal to the
effective chunk size only when no chunk size has been negotiated. -/
theorem sender_oversize_request_nack (s : SenderState) (addr len : Nat)
    (haddr : addr < 4294967296) (hlen : len < 65536)
    (heff : get_effective_chunk_size s.maxDataLength s.negotiatedChunkSize < len)
    (hseq : s.seqId < 65536) (hmdl : s.maxDataLength < 65536) :
    wait_for_data_request s (some (REQUEST_DATA, le32 addr ++ le16 len)) =
      SenderOutcome.continueWait [le16 s.seqId ++ le16 s.maxDataLength] s := by
  unfold wait_for_data_request
  have hc : ¬ (REQUEST_DATA ≠ REQUEST_DATA) := by simp
  have hlen6 : (le32 addr ++ le16 len).length = 6 := by simp [le32, le16]
  have hshape : le32 addr ++ le16 len =
      [addr % 256, addr / 256 % 256, addr / 65536 % 256, addr / 16777216,
       len % 256, len / 256] := by
    simp [le32, le16]
  rw [hshape] at hlen6 ⊢
  have hlen' : read16 ([addr % 256, addr / 256 % 256, addr / 65536 % 256,
      addr / 16777216, len % 256, len / 256].getD 4 0)
      ([addr % 256, addr / 256 % 256, addr / 65536 % 256, addr / 16777216,
        len % 256, len / 256].getD 5 0) = len := by
    simp only [List.getD_cons_zero, List.getD_cons_succ, read16]
    omega
  simp only [hc, if_false, hlen6, hlen', ne_eq, not_true_eq_false,
    not_false_eq_true, if_true, heff]
  have hguard : ¬ (65536 ≤ s.seqId ∨ 65536 ≤ s.maxDataLength) := by omega
  simp [hguard, heff]

/-- Witness for C5 amended at a concrete oversize request. -/
theorem sender_oversize_request_nack_witness :
    wait_for_data_request ⟨0, 100000, 1024, some 2048⟩
        (some (REQUEST_DATA, le32 0 ++ le16 4096)) =
      SenderOutcome.continueWait [le16 0 ++ le16 1024] ⟨0, 100000, 1024, some 2048⟩ :=
  sender_oversize_request_nack ⟨0, 100000, 1024, some 2048⟩ 0 4096
    (by decide) (by decide) (by decide) (by decide) (by decide)

/-! ## Path utilities (`utils/path_utils.py`) and the batch receiver's path
construction (`transfer/file_manager.py`, `ReceiverFileManager`)

Strings are `List Char`. POSIX path semantics: a path is an absolute flag
plus a list of segments; `pathlib` drops empty and `.` components when
parsing and keeps `..`; `resolve()` is modelled on segments, with `..`
popping the previous segment. -/

/-- The character class `[<>:"/\\|?*]` of `sanitize_filename`. -/
def badChar (c : Char) : Bool :=
  c == '<' || c == '>' || c == ':' || c == '"' || c == '/' ||
    c == '\\' || c == '|' || c == '?' || c == '*'

/-- `re.sub(r'[<>:"/\\|?*]', '_', filename)`. -/
def replaceBadChars (s : List Char) : List Char :=
  s.map (fun c => if badChar c then '_' else c)

/-- The characters removed by `.strip(' .')`. -/
def stripChar (c : Char) : Bool :=
  c == ' ' || c == '.'

/-- Python `str.strip(' .')`: drop the characters from both ends. -/
def pyStrip (s : List Char) : List Char :=
  ((s.dropWhile stripChar).reverse.dropWhile stripChar).reverse

/-- The fallback name `"unnamed_file"`. -/
def unnamedFile : List Char :=
  ['u', 'n', 'n', 'a', 'm', 'e', 'd', '_', 'f', 'i', 'l', 'e']

/-- Index of the last `'.'` in `s`, if any. -/
def lastDotIdx (s : List Char) : Option Nat :=
  match s.reverse.findIdx? (· == '.') with
  | none => none
  | some r => some (s.length - 1 - r)

/-- `os.path.splitext`: split at the last dot, unless every character before
that dot is itself a dot (then there is no extension). -/
def splitextP (s : List Char) : List Char × List Char :=
  match lastDotIdx s with
  | none => (s, [])
  | some i => if (s.take i).any (fun c => ¬ c == '.') then (s.take i, s.drop i) else (s, [])

/-- Python slicing `s[:k]` for an `int` bound: a nonnegative bound keeps the
first `k` characters, a negative bound drops the last `|k|`. -/
def pySliceTo (s : List Char) (k : Int) : List Char :=
  if 0 ≤ k then s.take k.toNat else s.take (s.length - (-k).toNat)

/-- The over-255 branch of `sanitize_filename`:
`name, ext = splitext(s); s = name[:255 - len(ext)] + ext`. -/
def truncate255 (s : List Char) : List Char :=
  let ne := splitextP s
  pySliceTo ne.1 (255 - (ne.2.length : Int)) ++ ne.2

/-- `sanitize_filename`: replace the unsafe characters by `'_'`, strip
surrounding spaces and dots, substitute `"unnamed_file"` for an empty
result, and shorten names longer than 255 characters around the
extension. -/
def sanitize_filename (s : List Char) : List Char :=
  let t := pyStrip (replaceBadChars s)
  let u := if t = [] then unnamedFile else t
  if 255 < u.length then truncate255 u else u

/-- Collapse runs of `'/'` to a single `'/'` (`re.sub(r'/+', '/', s)`). -/
def collapseSlashes : List Char → List Char
  | [] => []
  | [c] => [c]
  | c1 :: c2 :: rest =>
    if c1 == '/' && c2 == '/' then collapseSlashes (c2 :: rest)
    else c1 :: collapseSlashes (c2 :: rest)

/-- `normalize_path`: backslashes to forward slashes, collapse repeated
slashes, strip leading slashes. -/
def normalize_path (s : List Char) : List Char :=
  (collapseSlashes (s.map (fun c => if c == '\\' then '/' else c))).dropWhile (· == '/')

/-- Split on `'/'`, keeping empty parts (Python `str.split('/')`). -/
def splitOnSlash : List Char → List (List Char)
  | [] => [[]]
  | c :: rest =>
    if c == '/' then [] :: splitOnSlash rest
    else
      match splitOnSlash rest with
      | [] => [[c]]
      | p :: ps => (c :: p) :: ps

/-- A POSIX `pathlib` path: absolute flag and segments (no empty or `"."`
segments; `".."` is kept literally). -/
structure PurePath where
  absolute : Bool
  segs : List (List Char)
deriving DecidableEq, Repr

/-- Parse a string into a `PurePath` the way `PurePosixPath` does: leading
slash means absolute; empty and `"."` components are dropped. -/
def parsePosix (s : List Char) : PurePath :=
  ⟨(match s with | '/' :: _ => true | _ => false),
   (splitOnSlash s).filterMap (fun part =>
     if part = [] ∨ part = ['.'] then none else some part)⟩

/-- `pathlib`'s `/` operator with a string on the right: an absolute operand
replaces the path, otherwise its segments are appended. -/
def pyJoin (p : PurePath) (s : List Char) : PurePath :=
  let q := parsePosix s
  if q.absolute then q else ⟨p.absolute, p.segs ++ q.segs⟩

/-- `pathlib` `PurePath.suffix` condition: the last dot of the final
component counts only when `0 < i < len(name) - 1`. -/
def pathSuffix (name : List Char) : List Char :=
  match lastDotIdx name with
  | none => []
  | some i => if 0 < i ∧ i < name.length - 1 then name.drop i else []

/-- `pathlib` `PurePath.stem`. -/
def pathStem (name : List Char) : List Char :=
  match lastDotIdx name with
  | none => name
  | some i => if 0 < i ∧ i < name.length - 1 then name.take i else name

/-- Decimal digit character. -/
def digitChar : Nat → Char
  | 0 => '0'
  | 1 => '1'
  | 2 => '2'
  | 3 => '3'
  | 4 => '4'
  | 5 => '5'
  | 6 => '6'
  | 7 => '7'
  | 8 => '8'
  | _ => '9'

/-- Decimal digits of `n`, most significant first (`str(n)`), with explicit
fuel for structural recursion. -/
def natDigitsAux : Nat → Nat → List Char
  | 0, _ => []
  | fuel + 1, n =>
    if n < 10 then [digitChar n]
    else natDigitsAux fuel (n / 10) ++ [digitChar (n % 10)]

/-- Decimal representation of `n` as characters. -/
def natDigits (n : Nat) : List Char :=
  natDigitsAux (n + 1) n

/-- The candidate name `f"{stem}_{counter}{suffix}"` of
`resolve_file_conflict`. -/
def conflictName (stem suffix : List Char) (counter : Nat) : List Char :=
  stem ++ '_' :: (natDigits counter ++ suffix)

/-- The numbered-suffix loop of `resolve_file_conflict`: try
`stem_1`, `stem_2`, … in the same directory; after 9999 failed attempts the
original path is returned unchanged. `fs` answers `path.exists()`. -/
def conflictLoop (fs : PurePath → Bool) (orig : PurePath)
    (stem suffix : List Char) : Nat → Nat → PurePath
  | _, 0 => orig
  | counter, fuel + 1 =>
    let cand : PurePath := ⟨orig.absolute, orig.segs.dropLast ++ [conflictName stem suffix counter]⟩
    if fs cand then conflictLoop fs orig stem suffix (counter + 1) fuel
    else cand

/-- `resolve_file_conflict`. -/
def resolve_file_conflict (fs : PurePath → Bool) (p : PurePath) : PurePath :=
  if fs p then
    let lastName := p.segs.getLastD []
    conflictLoop fs p (pathStem lastName) (pathSuffix lastName) 1 9999
  else p

/-- `create_safe_path(base, rel)`: normalize the relative path, split it on
slashes, drop empty and `"."` parts, sanitize every remaining part, join the
parts (or `"unnamed_file"` when none remain) under the base path, and
resolve filename conflicts. -/
def create_safe_path (fs : PurePath → Bool) (base : PurePath) (rel : List Char) :
    PurePath :=
  let parts := (splitOnSlash (normalize_path rel)).filterMap (fun part =>
    if part = [] ∨ part = ['.'] then none else some (sanitize_filename part))
  let segs := base.segs ++ (if parts = [] then [unnamedFile] else parts)
  resolve_file_conflict fs ⟨base.absolute, segs⟩

/-- `ReceiverFileManager.start_batch_receive` builds the destination as
`save_path = self.folder_path / filename` — a raw `pathlib` join of the
wire-delivered name, with none of the `path_utils` helpers involved. -/
def batch_receive_save_path (folder : PurePath) (filename : List Char) : PurePath :=
  pyJoin folder filename

/-- `Path.resolve()` on segments: `..` removes the previous segment (and is
a no-op at the root). -/
def resolveSegs (segs : List (List Char)) : List (List Char) :=
  segs.foldl (fun acc seg => if seg = ['.', '.'] then acc.dropLast else acc ++ [seg]) []

/-- Resolution of a parsed path. -/
def resolvePath (p : PurePath) : PurePath :=
  ⟨p.absolute, resolveSegs p.segs⟩

/-- `p` lies inside `base`: after resolution they agree on absoluteness and
the resolved base segments are an initial run of the resolved `p`
segments. -/
def insideOf (base p : PurePath) : Prop :=
  (resolvePath p).absolute = (resolvePath base).absolute ∧
    (resolvePath p).segs.take (resolvePath base).segs.length = (resolvePath base).segs

instance (base p : PurePath) : Decidable (insideOf base p) := by
  unfold insideOf
  infer_instance

/-- A path segment that can never change the directory: nonempty, not `"."`,
not `".."`, and free of the separator. -/
def goodSeg (seg : List Char) : Prop :=
  seg ≠ [] ∧ seg ≠ ['.'] ∧ seg ≠ ['.', '.'] ∧ '/' ∉ seg

theorem head?_dropWhile_not (p : Char → Bool) (l : List Char) (c : Char)
    (h : (l.dropWhile p).head? = some c) : p c = false := by
  induction l with
  | nil => simp [List.dropWhile] at h
  | cons a t ih =>
    rw [List.dropWhile_cons] at h
    split_ifs at h with hpa
    · exact ih h
    · simp only [List.head?_cons, Option.some.injEq] at h
      subst h
      simpa using hpa

theorem pyStrip_last_not_strip (s : List Char) (c : Char)
    (h : (pyStrip s).getLast? = some c) : stripChar c = false := by
  unfold pyStrip at h
  rw [List.getLast?_reverse] at h
  exact head?_dropWhile_not _ _ _ h

theorem mem_pyStrip (s : List Char) (c : Char) (h : c ∈ pyStrip s) : c ∈ s := by
  unfold pyStrip at h
  rw [List.mem_reverse] at h
  have h1 := (List.dropWhile_sublist _).subset h
  rw [List.mem_reverse] at h1
  exact (List.dropWhile_sublist _).subset h1

theorem replaceBadChars_no_slash (s : List Char) : '/' ∉ replaceBadChars s := by
  unfold replaceBadChars
  intro h
  rw [List.mem_map] at h
  obtain ⟨a, _, ha⟩ := h
  by_cases hb : badChar a
  · rw [if_pos hb] at ha
    exact absurd ha (by decide)
  · rw [if_neg hb] at ha
    subst ha
    exact hb (by decide)

theorem mem_pySliceTo (l : List Char) (k : Int) (c : Char)
    (h : c ∈ pySliceTo l k) : c ∈ l := by
  unfold pySliceTo at h
  split_ifs at h <;> exact List.mem_of_mem_take h

theorem mem_truncate255 (u : List Char) (c : Char) (h : c ∈ truncate255 u) :
    c ∈ u := by
  unfold truncate255 at h
  rw [List.mem_append] at h
  rcases h with h | h
  · have h1 := mem_pySliceTo _ _ _ h
    unfold splitextP at h1
    cases hdot : lastDotIdx u with
    | none => rw [hdot] at h1; exact h1
    | some i =>
      rw [hdot] at h1
      dsimp only at h1
      split_ifs at h1
      · exact List.mem_of_mem_take h1
      · exact h1
  · unfold splitextP at h
    cases hdot : lastDotIdx u with
    | none => rw [hdot] at h; simp at h
    | some i =>
      rw [hdot] at h
      dsimp only at h
      split_ifs at h
      · exact List.mem_of_mem_drop h
      · simp at h

theorem mem_sanitize_filename (s : List Char) (c : Char)
    (h : c ∈ sanitize_filename s) :
    c ∈ replaceBadChars s ∨ c ∈ unnamedFile := by
  simp only [sanitize_filename] at h
  split_ifs at h with h1 h2 h3 <;>
    first
      | exact Or.inr (mem_truncate255 _ _ h)
      | exact Or.inr h
      | exact Or.inl (mem_pyStrip _ _ (mem_truncate255 _ _ h))
      | exact Or.inl (mem_pyStrip _ _ h)

theorem sanitize_no_slash (s : List Char) : '/' ∉ sanitize_filename s := by
  intro h
  rcases mem_sanitize_filename s '/' h with h1 | h1
  · exact replaceBadChars_no_slash s h1
  · exact absurd h1 (by decide)

theorem getLast?_drop_of_lt (l : List Char) (n : Nat) (h : n < l.length) :
    (l.drop n).getLast? = l.getLast? := by
  induction l generalizing n with
  | nil => simp at h
  | cons a t ih =>
    cases n with
    | zero => simp
    | succ m =>
      have hm : m < t.length := by simpa using h
      rw [List.drop_succ_cons, ih m hm]
      cases t with
      | nil => simp at hm
      | cons b u => simp

theorem lastDotIdx_lt (s : List Char) (i : Nat) (h : lastDotIdx s = some i) :
    i < s.length := by
  unfold lastDotIdx at h
  cases hf : s.reverse.findIdx? (· == '.') with
  | none => rw [hf] at h; exact absurd h (by simp)
  | some r =>
    rw [hf] at h
    simp only [Option.some.injEq] at h
    have hne : s ≠ [] := by
      intro h0
      subst h0
      simp at hf
    have hpos : 0 < s.length := List.length_pos.mpr hne
    omega

theorem goodSeg_of_getLast? (t : List Char) (hne : t ≠ [])
    (hlast : ∀ c, t.getLast? = some c → stripChar c = false)
    (hslash : '/' ∉ t) : goodSeg t := by
  refine ⟨hne, ?_, ?_, hslash⟩
  · intro h
    subst h
    have := hlast '.' (by decide)
    simp [stripChar] at this
  · intro h
    subst h
    have := hlast '.' (by decide)
    simp [stripChar] at this

theorem goodSeg_take255 (t : List Char) (hlong : 255 < t.length)
    (hslash : '/' ∉ t) : goodSeg (List.take 255 t) := by
  have hl : (List.take 255 t).length = 255 := by
    rw [List.length_take]
    omega
  refine ⟨?_, ?_, ?_, fun h => hslash (List.mem_of_mem_take h)⟩
  · intro h0
    rw [h0] at hl
    simp at hl
  · intro h0
    rw [h0] at hl
    simp at hl
  · intro h0
    rw [h0] at hl
    simp at hl

theorem truncate255_goodSeg (t : List Char) (hlong : 255 < t.length)
    (hlast : ∀ c, t.getLast? = some c → stripChar c = false)
    (hslash : '/' ∉ t) : goodSeg (truncate255 t) := by
  have hteq : pySliceTo t ((255 : Int) - ((0 : Nat) : Int)) = List.take 255 t := by
    simp [pySliceTo]
  unfold truncate255 splitextP
  cases hdot : lastDotIdx t with
  | none =>
    dsimp only
    rw [List.length_nil]
    rw [hteq, List.append_nil]
    exact goodSeg_take255 t hlong hslash
  | some i =>
    dsimp only
    split_ifs with hany
    · dsimp only
      have hi : i < t.length := lastDotIdx_lt t i hdot
      have hextne : t.drop i ≠ [] := by
        intro h0
        have := congrArg List.length h0
        simp at this
        omega
      have hglast : (pySliceTo (t.take i) ((255 : Int) - ((t.drop i).length : Int)) ++
          t.drop i).getLast? = t.getLast? := by
        rw [List.getLast?_append_of_ne_nil _ hextne, getLast?_drop_of_lt t i hi]
      obtain ⟨c, hc⟩ : ∃ c, t.getLast? = some c := by
        cases hgl : t.getLast? with
        | none =>
          rw [List.getLast?_eq_none_iff] at hgl
          subst hgl
          simp at hlong
        | some c => exact ⟨c, rfl⟩
      have hcs := hlast c hc
      refine ⟨?_, ?_, ?_, ?_⟩
      · intro h0
        rw [h0, hc] at hglast
        simp at hglast
      · intro h0
        rw [h0, hc] at hglast
        simp only [List.getLast?_singleton, Option.some.injEq] at hglast
        rw [← hglast] at hcs
        simp [stripChar] at hcs
      · intro h0
        rw [h0, hc] at hglast
        have hdot2 : (['.', '.'] : List Char).getLast? = some '.' := by decide
        rw [hdot2] at hglast
        simp only [Option.some.injEq] at hglast
        rw [← hglast] at hcs
        simp [stripChar] at hcs
      · intro hmem
        rcases List.mem_append.mp hmem with hmem | hmem
        · exact hslash (List.mem_of_mem_take (mem_pySliceTo _ _ _ hmem))
        · exact hslash (List.mem_of_mem_drop hmem)
    · dsimp only
      rw [List.length_nil]
      rw [hteq, List.append_nil]
      exact goodSeg_take255 t hlong hslash

theorem sanitize_goodSeg (s : List Char) : goodSeg (sanitize_filename s) := by
  simp only [sanitize_filename]
  split_ifs with h1 h2 h3
  · exact absurd h2 (by decide)
  · unfold goodSeg
    decide
  · apply truncate255_goodSeg _ h3
    · exact fun c hc => pyStrip_last_not_strip _ c hc
    · exact fun h => replaceBadChars_no_slash s (mem_pyStrip _ _ h)
  · apply goodSeg_of_getLast? _ h1
    · exact fun c hc => pyStrip_last_not_strip _ c hc
    · exact fun h => replaceBadChars_no_slash s (mem_pyStrip _ _ h)

theorem digitChar_ne_slash (d : Nat) : digitChar d ≠ '/' := by
  unfold digitChar
  split <;> decide

theorem natDigitsAux_no_slash (fuel n : Nat) : '/' ∉ natDigitsAux fuel n := by
  induction fuel generalizing n with
  | zero => simp [natDigitsAux]
  | succ f ih =>
    simp only [natDigitsAux]
    split_ifs with h
    · intro h0
      simp only [List.mem_singleton] at h0
      exact digitChar_ne_slash n h0.symm
    · intro h0
      rcases List.mem_append.mp h0 with h0 | h0
      · exact ih (n / 10) h0
      · simp only [List.mem_singleton] at h0
        exact digitChar_ne_slash (n % 10) h0.symm

theorem mem_pathStem (name : List Char) (c : Char) (h : c ∈ pathStem name) :
    c ∈ name := by
  unfold pathStem at h
  cases hdot : lastDotIdx name with
  | none => rwa [hdot] at h
  | some i =>
    rw [hdot] at h
    dsimp only at h
    split_ifs at h
    · exact List.mem_of_mem_take h
    · exact h

theorem mem_pathSuffix (name : List Char) (c : Char) (h : c ∈ pathSuffix name) :
    c ∈ name := by
  unfold pathSuffix at h
  cases hdot : lastDotIdx name with
  | none => rw [hdot] at h; simp at h
  | some i =>
    rw [hdot] at h
    dsimp only at h
    split_ifs at h
    · exact List.mem_of_mem_drop h
    · simp at h

theorem conflictName_goodSeg (lastName : List Char) (hslash : '/' ∉ lastName)
    (k : Nat) :
    goodSeg (conflictName (pathStem lastName) (pathSuffix lastName) k) := by
  have hu : '_' ∈ conflictName (pathStem lastName) (pathSuffix lastName) k := by
    unfold conflictName
    simp
  refine ⟨?_, ?_, ?_, ?_⟩
  · intro h0
    rw [h0] at hu
    simp at hu
  · intro h0
    rw [h0] at hu
    exact absurd hu (by decide)
  · intro h0
    rw [h0] at hu
    exact absurd hu (by decide)
  · intro h0
    unfold conflictName at h0
    rcases List.mem_append.mp h0 with h0 | h0
    · exact hslash (mem_pathStem _ _ h0)
    · rcases List.mem_cons.mp h0 with h0 | h0
      · exact absurd h0.symm (by decide)
      · rcases List.mem_append.mp h0 with h0 | h0
        · exact natDigitsAux_no_slash _ _ h0
        · exact hslash (mem_pathSuffix _ _ h0)

theorem resolve_conflict_shape (fs : PurePath → Bool) (ab : Bool)
    (bsegs parts1 : List (List Char)) (hne1 : parts1 ≠ [])
    (hgood1 : ∀ seg ∈ parts1, goodSeg seg) :
    ∃ parts, parts ≠ [] ∧ (∀ seg ∈ parts, goodSeg seg) ∧
      resolve_file_conflict fs ⟨ab, bsegs ++ parts1⟩ = ⟨ab, bsegs ++ parts⟩ := by
  unfold resolve_file_conflict
  split_ifs with hfs
  · dsimp only
    have hlastmem : ((bsegs ++ parts1).getLastD []) ∈ parts1 := by
      rw [List.getLastD_eq_getLast?, List.getLast?_append_of_ne_nil _ hne1,
        List.getLast?_eq_getLast _ hne1]
      exact List.getLast_mem hne1
    have hlastslash : '/' ∉ (bsegs ++ parts1).getLastD [] :=
      (hgood1 _ hlastmem).2.2.2
    have loopShape : ∀ fuel k, ∃ parts, parts ≠ [] ∧ (∀ seg ∈ parts, goodSeg seg) ∧
        conflictLoop fs ⟨ab, bsegs ++ parts1⟩
          (pathStem ((bsegs ++ parts1).getLastD []))
          (pathSuffix ((bsegs ++ parts1).getLastD [])) k fuel =
          ⟨ab, bsegs ++ parts⟩ := by
      intro fuel
      induction fuel with
      | zero => intro k; exact ⟨parts1, hne1, hgood1, rfl⟩
      | succ f ih =>
        intro k
        simp only [conflictLoop]
        split_ifs with hc
        · exact ih (k + 1)
        · refine ⟨parts1.dropLast ++
            [conflictName (pathStem ((bsegs ++ parts1).getLastD []))
              (pathSuffix ((bsegs ++ parts1).getLastD [])) k], by simp, ?_, ?_⟩
          · intro seg hseg
            rcases List.mem_append.mp hseg with hseg | hseg
            · exact hgood1 seg ((List.dropLast_sublist parts1).subset hseg)
            · simp only [List.mem_singleton] at hseg
              subst hseg
              exact conflictName_goodSeg _ hlastslash k
          · show (⟨ab, (bsegs ++ parts1).dropLast ++ _⟩ : PurePath) = _
            rw [List.dropLast_append_of_ne_nil _ hne1, List.append_assoc]
    exact loopShape 9999 1
  · exact ⟨parts1, hne1, hgood1, rfl⟩

theorem create_safe_path_shape (fs : PurePath → Bool) (base : PurePath)
    (rel : List Char) :
    ∃ parts, parts ≠ [] ∧ (∀ seg ∈ parts, goodSeg seg) ∧
      create_safe_path fs base rel = ⟨base.absolute, base.segs ++ parts⟩ := by
  have hgood1 : ∀ seg ∈ (if ((splitOnSlash (normalize_path rel)).filterMap (fun part =>
      if part = [] ∨ part = ['.'] then none else some (sanitize_filename part))) = []
      then [unnamedFile]
      else (splitOnSlash (normalize_path rel)).filterMap (fun part =>
        if part = [] ∨ part = ['.'] then none else some (sanitize_filename part))),
      goodSeg seg := by
    intro seg hseg
    split_ifs at hseg with he
    · simp only [List.mem_singleton] at hseg
      subst hseg
      unfold goodSeg
      decide
    · rw [List.mem_filterMap] at hseg
      obtain ⟨a, _, ha⟩ := hseg
      split_ifs at ha
      simp only [Option.some.injEq] at ha
      exact ha ▸ sanitize_goodSeg a
  have hne1 : (if ((splitOnSlash (normalize_path rel)).filterMap (fun part =>
      if part = [] ∨ part = ['.'] then none else some (sanitize_filename part))) = []
      then [unnamedFile]
      else (splitOnSlash (normalize_path rel)).filterMap (fun part =>
        if part = [] ∨ part = ['.'] then none else some (sanitize_filename part))) ≠
        ([] : List (List Char)) := by
    split_ifs with he
    · simp
    · exact he
  have hcsp : create_safe_path fs base rel =
      resolve_file_conflict fs ⟨base.absolute, base.segs ++
        (if ((splitOnSlash (normalize_path rel)).filterMap (fun part =>
          if part = [] ∨ part = ['.'] then none else some (sanitize_filename part))) = []
        then [unnamedFile]
        else (splitOnSlash (normalize_path rel)).filterMap (fun part =>
          if part = [] ∨ part = ['.'] then none else some (sanitize_filename part)))⟩ := rfl
  rw [hcsp]
  exact resolve_conflict_shape fs base.absolute base.segs _ hne1 hgood1

theorem foldl_resolve_no_dotdot (parts : List (List Char)) :
    ∀ acc, (∀ seg ∈ parts, seg ≠ ['.', '.']) →
      parts.foldl (fun acc seg => if seg = ['.', '.'] then acc.dropLast else acc ++ [seg])
        acc = acc ++ parts := by
  induction parts with
  | nil =>
    intro acc _
    simp
  | cons p ps ih =>
    intro acc hgood
    rw [List.foldl_cons]
    have hp : p ≠ ['.', '.'] := hgood p (by simp)
    rw [if_neg hp, ih (acc ++ [p]) (fun seg hseg => hgood seg (by simp [hseg]))]
    simp

theorem resolveSegs_append_good (b parts : List (List Char))
    (h : ∀ seg ∈ parts, seg ≠ ['.', '.']) :
    resolveSegs (b ++ parts) = resolveSegs b ++ parts := by
  unfold resolveSegs
  rw [List.foldl_append]
  exact foldl_resolve_no_dotdot parts _ h

/-- C1 counterexample: base directory `/recv`, delivered file name
`../secret.txt`. The batch receiver's actual destination,
`folder_path / filename`, resolves to `/secret.txt` — outside the base —
whereas routing the same name through `create_safe_path` (as the claim
asserts the receiver does) would have stayed inside the base. -/
theorem batch_receive_escapes_base :
    ¬ insideOf ⟨true, [['r', 'e', 'c', 'v']]⟩
        (batch_receive_save_path ⟨true, [['r', 'e', 'c', 'v']]⟩
          ['.', '.', '/', 's', 'e', 'c', 'r', 'e', 't', '.', 't', 'x', 't']) ∧
    insideOf ⟨true, [['r', 'e', 'c', 'v']]⟩
        (create_safe_path (fun _ => false) ⟨true, [['r', 'e', 'c', 'v']]⟩
          ['.', '.', '/', 's', 'e', 'c', 'r', 'e', 't', '.', 't', 'x', 't']) := by
  constructor <;> decide

/-- C1 amended: `create_safe_path` itself always returns a path inside the
base after resolution — every segment it builds is nonempty, sanitized and
never `..` — but the batch receiver does not call it:
`start_batch_receive` opens `folder_path / filename`, the raw join of the
wire-delivered name, which stays inside the base only when that name parses
as a relative path without `..` components. -/
theorem create_safe_path_inside_base :
    (∀ (fs : PurePath → Bool) (base : PurePath) (rel : List Char),
      insideOf base (create_safe_path fs base rel)) ∧
    (∀ (base : PurePath) (name : List Char),
      (parsePosix name).absolute = false →
      (∀ seg ∈ (parsePosix name).segs, seg ≠ ['.', '.']) →
      insideOf base (batch_receive_save_path base name)) := by
  constructor
  · intro fs base rel
    obtain ⟨parts, hne, hgood, heq⟩ := create_safe_path_shape fs base rel
    rw [heq]
    unfold insideOf resolvePath
    dsimp only
    rw [resolveSegs_append_good base.segs parts (fun seg hseg => (hgood seg hseg).2.2.1)]
    exact ⟨rfl, List.take_left' rfl⟩
  · intro base name habs hgood
    unfold batch_receive_save_path pyJoin
    dsimp only
    split_ifs with h
    · simp [habs] at h
    · unfold insideOf resolvePath
      dsimp only
      rw [resolveSegs_append_good base.segs (parsePosix name).segs hgood]
      exact ⟨rfl, List.take_left' rfl⟩

/-- Witness for C1 amended: base `/dst`, relative name `a/b`. -/
theorem create_safe_path_inside_base_witness :
    insideOf ⟨true, [['d', 's', 't']]⟩
        (create_safe_path (fun _ => false) ⟨true, [['d', 's', 't']]⟩ ['a', '/', 'b']) ∧
    insideOf ⟨true, [['d', 's', 't']]⟩
        (batch_receive_save_path ⟨true, [['d', 's', 't']]⟩ ['a', '/', 'b']) :=
  ⟨create_safe_path_inside_base.1 (fun _ => false) ⟨true, [['d', 's', 't']]⟩
      ['a', '/', 'b'],
   create_safe_path_inside_base.2 ⟨true, [['d', 's', 't']]⟩ ['a', '/', 'b']
      (by decide) (by decide)⟩
